import Mathlib

/-!
Shallow embedding of the WDR Cosmo playlist scraper's ingestion and
deduplication pipeline (`scraper.py`, `database.py`), together with proofs
of the specification's claims about it.

Conventions of the embedding:
* Python strings are Lean `String`s; the character-level operations the code
  uses (`str.replace`, `str.strip`, `str.split`, `in`) are re-implemented
  over `List Char` so that every definition evaluates inside the kernel.
  Python's `str.strip` strips Unicode whitespace; the inputs here are ASCII,
  so the ASCII whitespace class suffices.
* `datetime` values are records of their numeric fields.  `datetime.replace`
  and `isoformat` are modelled field-by-field exactly as CPython behaves
  (`isoformat` appends a 6-digit fraction only when `microsecond` is nonzero).
* `datetime.strptime` against the three formats `"%H:%M"`, `"%I:%M %p"` and
  `"%H:%M:%S"` is modelled after CPython's `_strptime` regexes: a field
  matches two digits within its range or a single digit, literal `:` must
  match exactly, a space in the format matches one or more whitespace
  characters, `%p` matches AM/PM case-insensitively, and the whole input
  must be consumed.
* Network effects are abstracted by oracles: `fetch_playlist` takes the
  per-hour parsed results, `_fetch_playlist_for_time` takes the outcome of
  the HTTP call, and the date-range driver takes the per-day results.
* The DuckDB sink is a list of rows; its `UNIQUE(artist, title, datetime)`
  constraint fires only between non-NULL `datetime` values (SQL UNIQUE
  constraints treat NULLs as distinct).  Exceptions become explicit
  outcomes; "any other storage error" is an oracle `fail`.
-/

/-! ### Character and string primitives (Python semantics) -/

/-- ASCII whitespace class stripped by Python's `str.strip()`. -/
def isPyWs (c : Char) : Bool :=
  c = ' ' || c = '\t' || c = '\n' || c = '\x0d' || c = '\x0b' || c = '\x0c'

/-- Numeric value of an ASCII digit character. -/
def digitVal (c : Char) : Nat := c.toNat - 48

/-- Python string `<=`: lexicographic comparison by code point. -/
def lexLe : List Char → List Char → Bool
  | [], _ => true
  | _ :: _, [] => false
  | a :: as, b :: bs =>
    if a.toNat < b.toNat then true
    else if b.toNat < a.toNat then false
    else lexLe as bs

/-- Python string `<`: strict lexicographic comparison by code point. -/
def lexLt : List Char → List Char → Bool
  | _, [] => false
  | [], _ :: _ => true
  | a :: as, b :: bs =>
    if a.toNat < b.toNat then true
    else if b.toNat < a.toNat then false
    else lexLt as bs

/-- One pass of Python's `str.replace`: scan left to right, replacing
non-overlapping occurrences of `pat`.  The fuel argument (instantiated with
the input length) only makes the recursion structural; a step always
consumes at least one character, so the fuel never runs out.  The callers
only use non-empty patterns. -/
def replaceFuel (pat repl : List Char) : Nat → List Char → List Char
  | _, [] => []
  | 0, l => l
  | fuel + 1, c :: rest =>
    if pat.isPrefixOf (c :: rest) && !pat.isEmpty then
      repl ++ replaceFuel pat repl fuel (rest.drop (pat.length - 1))
    else
      c :: replaceFuel pat repl fuel rest

/-- Python `s.replace(pat, repl)`. -/
def pyReplace (s pat repl : String) : String :=
  ⟨replaceFuel pat.data repl.data s.data.length s.data⟩

/-- Python `s.strip()` (ASCII whitespace). -/
def pyStrip (s : String) : String :=
  ⟨((s.data.dropWhile isPyWs).reverse.dropWhile isPyWs).reverse⟩

/-- Python `s.split(',')` on the character list. -/
def splitCommaAux : List Char → List Char → List (List Char)
  | [], acc => [acc.reverse]
  | c :: rest, acc =>
    if c = ',' then acc.reverse :: splitCommaAux rest [] else splitCommaAux rest (c :: acc)

/-- Python `s.split(',')`. -/
def pySplitComma (s : String) : List String :=
  (splitCommaAux s.data []).map String.mk

/-- Python `',' in s`. -/
def containsComma (s : String) : Bool := s.data.any (· = ',')

/-- Zero-padded decimal rendering, as produced by `strftime`/`isoformat`. -/
def padNum (w n : Nat) : String :=
  String.mk (List.replicate (w - (toString n).length) '0') ++ toString n

/-! ### `datetime` values -/

/-- A CPython `datetime` value (the fields the scraper touches). -/
structure PyDateTime where
  year : Nat
  month : Nat
  day : Nat
  hour : Nat
  minute : Nat
  second : Nat
  microsecond : Nat
deriving DecidableEq, Repr

/-- `date.replace(hour=h, minute=m, second=s)`: all other fields, the
`microsecond` included, are preserved. -/
def PyDateTime.replaceTime (d : PyDateTime) (h m s : Nat) : PyDateTime :=
  { d with hour := h, minute := m, second := s }

/-- `datetime.isoformat()`: the 6-digit fraction appears exactly when
`microsecond` is nonzero. -/
def PyDateTime.isoformat (d : PyDateTime) : String :=
  padNum 4 d.year ++ "-" ++ padNum 2 d.month ++ "-" ++ padNum 2 d.day ++ "T" ++
  padNum 2 d.hour ++ ":" ++ padNum 2 d.minute ++ ":" ++ padNum 2 d.second ++
  (if d.microsecond = 0 then "" else "." ++ padNum 6 d.microsecond)

/-- `date.strftime('%Y-%m-%d')`. -/
def PyDateTime.dateString (d : PyDateTime) : String :=
  padNum 4 d.year ++ "-" ++ padNum 2 d.month ++ "-" ++ padNum 2 d.day

/-- `date.date() == datetime.now().date()`: calendar-date equality. -/
def sameDate (a b : PyDateTime) : Bool :=
  a.year == b.year && a.month == b.month && a.day == b.day

/-! ### `datetime.strptime` for the three accepted time formats -/

/-- One numeric `strptime` field: CPython's regex alternation prefers a
two-digit match (constrained by `valid2`) over a one-digit match
(constrained by `valid1`).  After such a field the format continues with
`:`, whitespace or the end of input, none of which is a digit, so the
committed choice below matches the regex engine's backtracking search. -/
def readNum (valid2 valid1 : Nat → Bool) : List Char → Option (Nat × List Char)
  | c1 :: c2 :: rest =>
    if c1.isDigit && c2.isDigit && valid2 (10 * digitVal c1 + digitVal c2) then
      some (10 * digitVal c1 + digitVal c2, rest)
    else if c1.isDigit && valid1 (digitVal c1) then
      some (digitVal c1, c2 :: rest)
    else none
  | [c1] =>
    if c1.isDigit && valid1 (digitVal c1) then some (digitVal c1, []) else none
  | [] => none

/-- Match one literal character of the format. -/
def expectChar (c : Char) : List Char → Option (List Char)
  | d :: rest => if d = c then some rest else none
  | [] => none

/-- A space in a `strptime` format matches one or more whitespace characters. -/
def skipWs1 : List Char → Option (List Char)
  | c :: rest => if isPyWs c then some (rest.dropWhile isPyWs) else none
  | [] => none

/-- `%p` at the end of the format: `AM`/`PM`, case-insensitive, result is
`true` for PM.  The two letters must be the entire remaining input. -/
def parseAmPm : List Char → Option Bool
  | [c1, c2] =>
    if c2.toLower = 'm' then
      if c1.toLower = 'a' then some false
      else if c1.toLower = 'p' then some true
      else none
    else none
  | _ => none

/-- `strptime(s, "%H:%M")`, reduced to the `(hour, minute, second)` triple
the caller reads off the result. -/
def parseHM (s : String) : Option (Nat × Nat × Nat) := do
  let (h, cs) ← readNum (fun n => n ≤ 23) (fun _ => true) s.data
  let cs ← expectChar ':' cs
  let (m, cs) ← readNum (fun n => n ≤ 59) (fun _ => true) cs
  match cs with
  | [] => some (h, m, 0)
  | _ => none

/-- `strptime(s, "%I:%M %p")`: `%I` is 1–12 and `%p` moves the hour onto
the 24-hour clock (`12 AM → 0`, `12 PM → 12`). -/
def parseIMp (s : String) : Option (Nat × Nat × Nat) := do
  let (i, cs) ← readNum (fun n => 1 ≤ n && n ≤ 12) (fun n => 1 ≤ n && n ≤ 9) s.data
  let cs ← expectChar ':' cs
  let (m, cs) ← readNum (fun n => n ≤ 59) (fun _ => true) cs
  let cs ← skipWs1 cs
  let pm ← parseAmPm cs
  some ((i % 12) + (if pm then 12 else 0), m, 0)

/-- `strptime(s, "%H:%M:%S")` (`%S` allows leap seconds up to 61). -/
def parseHMS (s : String) : Option (Nat × Nat × Nat) := do
  let (h, cs) ← readNum (fun n => n ≤ 23) (fun _ => true) s.data
  let cs ← expectChar ':' cs
  let (m, cs) ← readNum (fun n => n ≤ 59) (fun _ => true) cs
  let cs ← expectChar ':' cs
  let (sec, cs) ← readNum (fun n => n ≤ 61) (fun _ => true) cs
  match cs with
  | [] => some (h, m, sec)
  | _ => none

/-- `CosmoPlaylistScraper._parse_timestamp`: empty input yields `''`, the
three formats are tried in order, the first success is combined with the
query date via `date.replace(...)` and rendered with `isoformat()`, and if
every format fails the result is `''` (the failure is only logged). -/
def parseTimestamp (ts : String) (date : PyDateTime) : String :=
  if ts = "" then ""
  else
    match parseHM ts with
    | some (h, m, s) => (date.replaceTime h m s).isoformat
    | none =>
      match parseIMp ts with
      | some (h, m, s) => (date.replaceTime h m s).isoformat
      | none =>
        match parseHMS ts with
        | some (h, m, s) => (date.replaceTime h m s).isoformat
        | none => ""

/-! ### `_parse_playlist`: one page's rows into song dictionaries -/

/-- One song dictionary as built by `_parse_playlist` (keys `artist`,
`title`, `time`, `date`, `datetime`; `datetime` is `''` when the time
string did not parse). -/
structure Song where
  artist : String
  title : String
  time : String
  date : String
  datetime : String
deriving DecidableEq, Repr

/-- One `tr.data` row of the playlist table.  Each field is `none` when the
corresponding element (`th.entry.datetime`, `td.entry.title`,
`td.entry.performer`) is absent from the row, and `some txt` with `txt` the
element's `get_text(strip=True)` otherwise — so a present element whose
text strips to the empty string is `some ""`, not `none`. -/
structure RawRow where
  datetimeElem : Option String
  titleElem : Option String
  performerElem : Option String
deriving DecidableEq, Repr

/-- The time-label normalization inside `_parse_playlist`: drop `Uhr`,
strip, take the part after the comma, strip it, and turn `17.15` into
`17:15`. -/
def extractTimeStr (raw : String) : String :=
  let t := pyStrip (pyReplace raw "Uhr" "")
  if containsComma t then
    pyReplace (pyStrip ((pySplitComma t).getD 1 "")) "." ":"
  else ""

/-- One iteration of the row loop in `_parse_playlist`.  The code guards
with `if title_elem and artist_elem:` — BeautifulSoup tags are always
truthy, so this tests only that both elements were found, not that their
text is non-empty. -/
def parseRow (date : PyDateTime) (row : RawRow) : Option Song :=
  match row.titleElem, row.performerElem with
  | some title, some artist =>
    let tstr := extractTimeStr (row.datetimeElem.getD "")
    some { artist := artist, title := title, time := tstr,
           date := date.dateString, datetime := parseTimestamp tstr date }
  | _, _ => none

/-- `_parse_playlist` over the data rows of the located table. -/
def parsePlaylist (date : PyDateTime) (rows : List RawRow) : List Song :=
  rows.filterMap (parseRow date)

/-! ### `_fetch_playlist_for_time`: the page fetcher -/

/-- Outcome of the HTTP form submission: either the page was retrieved
(carrying its parsed rows) or a `requests.RequestException` was raised
(timeout, connection error, or `raise_for_status` on a non-2xx status). -/
inductive FetchOutcome where
  | success (rows : List RawRow)
  | failure
deriving DecidableEq, Repr

/-- `_fetch_playlist_for_time`.  The second component records whether
`time.sleep(self.delay)` ran: the sleep sits inside the `try` block after
the request and the parse, so the `except` branch returns `[]` without
sleeping. -/
def fetchForTime (outcome : FetchOutcome) (date : PyDateTime) : List Song × Bool :=
  match outcome with
  | .success rows => (parsePlaylist date rows, true)
  | .failure => ([], false)

/-! ### `fetch_playlist`: the hourly-window collector -/

/-- The deduplication key `(song['artist'], song['title'], song['time'])`. -/
def songKey (s : Song) : String × String × String := (s.artist, s.title, s.time)

/-- One iteration of the inner dedup loop: the running state is
`(all_songs, seen_songs)`; a song whose key is already in `seen_songs` is
discarded, otherwise it is appended and its key recorded. -/
def addSong (st : List Song × List (String × String × String)) (s : Song) :
    List Song × List (String × String × String) :=
  if songKey s ∈ st.2 then st else (st.1 ++ [s], songKey s :: st.2)

/-- Merging one hour's fetched songs into the running state. -/
def addSongs (st : List Song × List (String × String × String)) (songs : List Song) :
    List Song × List (String × String × String) :=
  songs.foldl addSong st

/-- The merged day result after folding every hour's list into an initially
empty state. -/
def collectHours (hours : List (List Song)) : List Song :=
  (hours.foldl addSongs ([], [])).1

/-- Sort-key comparison used by `all_songs.sort(key=lambda s: s.get('datetime', ''))`:
Python string `<=` on the `datetime` field (every parsed song has the key,
with `''` standing for an absent timestamp). -/
def songLe (a b : Song) : Prop := lexLe a.datetime.data b.datetime.data = true

instance : DecidableRel songLe := fun a b => by unfold songLe; infer_instance

/-- Python's `list.sort` is a stable ascending sort; any stable sort
computes the same list, so it is modelled by stable insertion sort. -/
def sortSongs (l : List Song) : List Song := l.insertionSort songLe

/-- `max_hour = datetime.now().hour + 1 if is_today else 24`. -/
def maxHourFor (date now : PyDateTime) : Nat :=
  if sameDate date now then now.hour + 1 else 24

/-- `range(max_hour)`: the hours for which `fetch_playlist` issues a query. -/
def hoursQueried (date now : PyDateTime) : List Nat :=
  List.range (maxHourFor date now)

/-- `fetch_playlist`, with the network and the parser behind the per-hour
oracle `fetchHour` (the value of `self._fetch_playlist_for_time(date, hour, 0)`)
and `datetime.now()` passed explicitly as `now`. -/
def fetchPlaylist (fetchHour : Nat → List Song) (date now : PyDateTime) : List Song :=
  sortSongs (collectHours ((hoursQueried date now).map fetchHour))

/-! ### `fetch_date_range`: the date-range driver -/

/-- The `while current_date <= end_date` loop, one day per iteration.
Calendar days are numbered by `Nat`; `timedelta(days=1)` is `+ 1`.  The
fuel is the number of remaining iterations. -/
def fetchDateRangeAux (fetchDay : Nat → List Song) : Nat → Nat → List Song
  | 0, _ => []
  | fuel + 1, cur => fetchDay cur ++ fetchDateRangeAux fetchDay fuel (cur + 1)

/-- `fetch_date_range` over the per-day collector oracle `fetchDay` (the
value of `self.fetch_playlist(current_date)`); the loop body runs once per
day of the inclusive range. -/
def fetchDateRange (fetchDay : Nat → List Song) (startDay endDay : Nat) : List Song :=
  fetchDateRangeAux fetchDay (endDay + 1 - startDay) startDay

/-! ### The ingestion sink (`database.py`) -/

/-- One stored row of the `songs` table (the fields `insert_songs` writes;
`None` is SQL NULL). -/
structure Row where
  artist : String
  title : String
  time : String
  date : Option String
  datetime : Option String
deriving DecidableEq, Repr

/-- The parameter binding in `insert_songs`: empty-string date/datetime are
passed as NULL. -/
def songToRow (s : Song) : Row :=
  { artist := s.artist, title := s.title, time := s.time,
    date := if s.date = "" then none else some s.date,
    datetime := if s.datetime = "" then none else some s.datetime }

/-- The stored table. -/
abbrev DB := List Row

/-- Whether inserting `r` violates `UNIQUE(artist, title, datetime)`.
NULL `datetime` values are distinct from everything (standard SQL UNIQUE
semantics), so only a non-NULL `datetime` can collide. -/
def violates (db : DB) (r : Row) : Bool :=
  db.any fun q =>
    decide (q.artist = r.artist ∧ q.title = r.title ∧ q.datetime = r.datetime ∧ r.datetime ≠ none)

/-- What became of one event inside the insert loop's `try/except`. -/
inductive Outcome where
  | inserted
  | skippedDup
  | skippedErr
deriving DecidableEq, Repr

/-- One iteration of the insert loop: a `duckdb.ConstraintException` is
caught and counted as a skip, any other exception (modelled by the oracle
`fail`) is caught, logged and skipped; otherwise the row is stored. -/
def insertOne (fail : Row → Bool) (db : DB) (r : Row) : Outcome × DB :=
  if violates db r then (.skippedDup, db)
  else if fail r then (.skippedErr, db)
  else (.inserted, db ++ [r])

/-- The insert loop over the whole batch, returning the per-event outcomes
in order together with the final table. -/
def insertAll (fail : Row → Bool) (db : DB) : List Song → List Outcome × DB
  | [] => ([], db)
  | s :: rest =>
    ((insertOne fail db (songToRow s)).1 ::
        (insertAll fail (insertOne fail db (songToRow s)).2 rest).1,
      (insertAll fail (insertOne fail db (songToRow s)).2 rest).2)

/-- `insert_songs`: the returned count is the number of `inserted` outcomes. -/
def insertSongs (fail : Row → Bool) (db : DB) (songs : List Song) : Nat × DB :=
  ((insertAll fail db songs).1.countP (· == Outcome.inserted), (insertAll fail db songs).2)

/-- The run in which no storage error beyond the uniqueness constraint
occurs. -/
def noFail : Row → Bool := fun _ => false

/-! ### Auxiliary definitions used by the statements -/

/-- Number of songs in `l` carrying the deduplication key `k`. -/
def countKey (l : List Song) (k : String × String × String) : Nat :=
  l.countP fun s => decide (songKey s = k)

/-- The invariant of the collector's running state: the admitted songs have
pairwise-distinct keys, and `seen_songs` holds exactly their keys. -/
def DedupInv (st : List Song × List (String × String × String)) : Prop :=
  st.1.Pairwise (fun a b => songKey a ≠ songKey b) ∧
  ∀ k, k ∈ st.2 ↔ ∃ s ∈ st.1, songKey s = k

/-! ### Order lemmas for the sort key -/

/-- `lexLe` is total. -/
theorem lexLe_total (a : List Char) : ∀ b, lexLe a b = true ∨ lexLe b a = true := by
  induction a with
  | nil => intro b; left; rfl
  | cons x xs ih =>
    intro b
    cases b with
    | nil => right; rfl
    | cons y ys =>
      by_cases h1 : x.toNat < y.toNat
      · left; simp [lexLe, h1]
      · by_cases h2 : y.toNat < x.toNat
        · right; simp [lexLe, h2]
        · rcases ih ys with h | h
          · left; simp [lexLe, h1, h2, h]
          · right; simp [lexLe, h1, h2, h]

/-- `lexLe` is transitive. -/
theorem lexLe_trans : ∀ {a b c : List Char},
    lexLe a b = true → lexLe b c = true → lexLe a c = true := by
  intro a
  induction a with
  | nil => intro b c _ _; rfl
  | cons x xs ih =>
    intro b c hab hbc
    cases b with
    | nil => simp [lexLe] at hab
    | cons y ys =>
      cases c with
      | nil => simp [lexLe] at hbc
      | cons z zs =>
        simp only [lexLe] at hab hbc ⊢
        rcases Nat.lt_trichotomy x.toNat y.toNat with h1 | h1 | h1
        · rcases Nat.lt_trichotomy y.toNat z.toNat with h2 | h2 | h2
          · simp [show x.toNat < z.toNat by omega]
          · simp [show x.toNat < z.toNat by omega]
          · simp [show ¬ y.toNat < z.toNat by omega, h2] at hbc
        · rcases Nat.lt_trichotomy y.toNat z.toNat with h2 | h2 | h2
          · simp [show x.toNat < z.toNat by omega]
          · simp only [show ¬ x.toNat < y.toNat by omega,
              show ¬ y.toNat < x.toNat by omega, if_neg, ite_false, ite_self] at hab
            simp only [show ¬ y.toNat < z.toNat by omega,
              show ¬ z.toNat < y.toNat by omega, ite_false, ite_self] at hbc
            simp [show ¬ x.toNat < z.toNat by omega, show ¬ z.toNat < x.toNat by omega,
              ih (by simpa using hab) (by simpa using hbc)]
          · simp [show ¬ y.toNat < z.toNat by omega, h2] at hbc
        · simp [show ¬ x.toNat < y.toNat by omega, h1] at hab

/-- The `''` sentinel of an absent timestamp is minimal for `lexLe`. -/
theorem lexLe_nil_left (l : List Char) : lexLe [] l = true := rfl

/-- `sortSongs` permutes its input. -/
theorem sortSongs_perm (l : List Song) : (sortSongs l).Perm l :=
  List.perm_insertionSort songLe l

/-- `sortSongs` output is pairwise nondecreasing in the sort key. -/
theorem sortSongs_pairwise (l : List Song) : (sortSongs l).Pairwise songLe := by
  have h := @List.sorted_insertionSort Song songLe _
    ⟨fun a b => lexLe_total a.datetime.data b.datetime.data⟩
    ⟨fun a b c hab hbc => lexLe_trans hab hbc⟩ l
  simpa [List.Sorted, sortSongs] using h

/-! ### Invariant lemmas for the dedup loop -/

/-- Songs already admitted stay admitted. -/
theorem addSong_mem {st : List Song × List (String × String × String)} {x : Song}
    (s : Song) (hx : x ∈ st.1) : x ∈ (addSong st s).1 := by
  unfold addSong
  by_cases h : songKey s ∈ st.2
  · simpa [h]
  · simp only [if_neg h]
    exact List.mem_append_left _ hx

/-- Songs already admitted survive merging a whole hour. -/
theorem addSongs_mem : ∀ (songs : List Song) (st) {x : Song},
    x ∈ st.1 → x ∈ (addSongs st songs).1
  | [], _, _, hx => hx
  | s :: rest, st, _, hx => addSongs_mem rest (addSong st s) (addSong_mem s hx)

/-- One dedup step preserves the collector invariant. -/
theorem addSong_inv {st} (s : Song) (h : DedupInv st) : DedupInv (addSong st s) := by
  obtain ⟨h1, h2⟩ := h
  unfold addSong
  by_cases hk : songKey s ∈ st.2
  · simpa [hk] using ⟨h1, h2⟩
  · simp only [if_neg hk]
    constructor
    · rw [List.pairwise_append]
      refine ⟨h1, List.pairwise_singleton _ _, ?_⟩
      intro a ha b hb
      rw [List.mem_singleton] at hb
      rw [hb]
      intro heq
      exact hk ((h2 (songKey s)).mpr ⟨a, ha, heq⟩)
    · intro k
      constructor
      · intro hmem
        rcases List.mem_cons.mp hmem with rfl | hmem
        · exact ⟨s, List.mem_append_right _ (List.mem_singleton_self s), rfl⟩
        · obtain ⟨t, ht, hkey⟩ := (h2 k).mp hmem
          exact ⟨t, List.mem_append_left _ ht, hkey⟩
      · rintro ⟨t, ht, hkey⟩
        rcases List.mem_append.mp ht with ht | ht
        · exact List.mem_cons_of_mem _ ((h2 k).mpr ⟨t, ht, hkey⟩)
        · rw [List.mem_singleton] at ht
          subst ht
          exact hkey ▸ List.mem_cons_self _ _

/-- Merging one hour preserves the collector invariant. -/
theorem addSongs_inv : ∀ (songs : List Song) (st), DedupInv st → DedupInv (addSongs st songs)
  | [], _, h => h
  | s :: rest, st, h => addSongs_inv rest (addSong st s) (addSong_inv s h)

/-- After a dedup step the new song's key is represented. -/
theorem addSong_key {st} (s : Song) (h : DedupInv st) :
    ∃ x ∈ (addSong st s).1, songKey x = songKey s := by
  unfold addSong
  by_cases hk : songKey s ∈ st.2
  · simp only [if_pos hk]
    exact (h.2 (songKey s)).mp hk
  · simp only [if_neg hk]
    exact ⟨s, List.mem_append_right _ (List.mem_singleton_self s), rfl⟩

/-- Every fetched song's key is represented after its hour is merged. -/
theorem addSongs_key : ∀ (songs : List Song) (st), DedupInv st → ∀ s ∈ songs,
    ∃ x ∈ (addSongs st songs).1, songKey x = songKey s
  | [], _, _, s, hs => absurd hs (List.not_mem_nil s)
  | a :: rest, st, hinv, s, hs => by
    rcases List.mem_cons.mp hs with rfl | hs
    · obtain ⟨x, hx, hkey⟩ := addSong_key s hinv
      exact ⟨x, addSongs_mem rest (addSong st s) hx, hkey⟩
    · exact addSongs_key rest (addSong st a) (addSong_inv a hinv) s hs

/-- Admitted songs survive the remaining hours. -/
theorem foldHours_mem : ∀ (hours : List (List Song)) (st) {x : Song},
    x ∈ st.1 → x ∈ (hours.foldl addSongs st).1
  | [], _, _, hx => hx
  | songs :: rest, st, _, hx => foldHours_mem rest (addSongs st songs) (addSongs_mem songs st hx)

/-- The collector invariant holds after any number of merged hours. -/
theorem foldHours_inv : ∀ (hours : List (List Song)) (st),
    DedupInv st → DedupInv (hours.foldl addSongs st)
  | [], _, h => h
  | songs :: rest, st, h => foldHours_inv rest (addSongs st songs) (addSongs_inv songs st h)

/-- Every song fetched in any hour has its key represented in the merged
day result. -/
theorem foldHours_key : ∀ (hours : List (List Song)) (st), DedupInv st →
    ∀ s ∈ hours.flatten, ∃ x ∈ (hours.foldl addSongs st).1, songKey x = songKey s
  | [], _, _, s, hs => absurd hs (List.not_mem_nil s)
  | songs :: rest, st, hinv, s, hs => by
    rw [List.flatten_cons] at hs
    rcases List.mem_append.mp hs with hs | hs
    · obtain ⟨x, hx, hkey⟩ := addSongs_key songs st hinv s hs
      exact ⟨x, foldHours_mem rest (addSongs st songs) hx, hkey⟩
    · exact foldHours_key rest (addSongs st songs) (addSongs_inv songs st hinv) s hs

/-- The invariant of the empty initial state. -/
theorem dedupInv_init : DedupInv ([], []) := by
  constructor
  · exact List.Pairwise.nil
  · intro k
    simp

/-- The merged day result has pairwise-distinct keys. -/
theorem collectHours_pairwise (hours : List (List Song)) :
    (collectHours hours).Pairwise (fun a b => songKey a ≠ songKey b) :=
  (foldHours_inv hours ([], []) dedupInv_init).1

/-! ### Lemmas about the ingestion sink -/

/-- An insert attempt never removes stored rows. -/
theorem insertOne_mem (fail : Row → Bool) (db : DB) (r : Row) {q : Row} (hq : q ∈ db) :
    q ∈ (insertOne fail db r).2 := by
  unfold insertOne
  split
  · exact hq
  · split
    · exact hq
    · exact List.mem_append_left _ hq

/-- A batch insert never removes stored rows. -/
theorem insertAll_mem : ∀ (songs : List Song) (fail : Row → Bool) (db : DB) {q : Row},
    q ∈ db → q ∈ (insertAll fail db songs).2
  | [], _, _, _, hq => hq
  | s :: rest, fail, db, _, hq =>
    insertAll_mem rest fail (insertOne fail db (songToRow s)).2 (insertOne_mem fail db _ hq)

/-- The uniqueness constraint keeps firing as the table grows. -/
theorem violates_mono {db db' : DB} (hsub : ∀ q ∈ db, q ∈ db') {r : Row}
    (h : violates db r = true) : violates db' r = true := by
  unfold violates at h ⊢
  rw [List.any_eq_true] at h ⊢
  obtain ⟨q, hq, hpred⟩ := h
  exact ⟨q, hsub q hq, hpred⟩

/-- After inserting a row with a non-NULL timestamp, that row's key is in
the table (whether it was freshly stored or already present). -/
theorem insertOne_key_stored (db : DB) {r : Row} {v : String} (hr : r.datetime = some v) :
    violates (insertOne noFail db r).2 r = true := by
  by_cases hv : violates db r = true
  · unfold insertOne
    rw [if_pos hv]
    exact hv
  · unfold insertOne
    rw [if_neg hv]
    simp only [noFail, Bool.false_eq_true, if_false]
    unfold violates
    rw [List.any_eq_true]
    exact ⟨r, List.mem_append_right _ (List.mem_singleton_self r), by simp [hr]⟩

/-- After an error-free batch run, every event with a parsed timestamp has
a matching stored row. -/
theorem run_key_stored : ∀ (songs : List Song) (db : DB) {s : Song}, s ∈ songs →
    s.datetime ≠ "" → violates (insertAll noFail db songs).2 (songToRow s) = true
  | [], _, _, hs, _ => absurd hs (List.not_mem_nil _)
  | a :: rest, db, s, hs, hne => by
    rcases List.mem_cons.mp hs with rfl | hs
    · have hr : (songToRow s).datetime = some s.datetime := by
        simp [songToRow, hne]
      have h1 := insertOne_key_stored db hr
      exact violates_mono
        (fun q hq => insertAll_mem rest noFail (insertOne noFail db (songToRow s)).2 hq) h1
    · exact run_key_stored rest (insertOne noFail db (songToRow a)).2 hs hne

/-- If every event with a parsed timestamp already has a matching stored
row, a re-run marks each of them as a constraint-violation skip. -/
theorem second_run_skips : ∀ (fail : Row → Bool) (songs : List Song) (db : DB),
    (∀ s ∈ songs, s.datetime ≠ "" → violates db (songToRow s) = true) →
    ∀ p ∈ songs.zip (insertAll fail db songs).1, p.1.datetime ≠ "" → p.2 = Outcome.skippedDup
  | _, [], _, _, p, hp, _ => absurd hp (List.not_mem_nil p)
  | fail, s :: rest, db, hstored, p, hp, hne => by
    have hzip : (s :: rest).zip (insertAll fail db (s :: rest)).1
        = (s, (insertOne fail db (songToRow s)).1) ::
          rest.zip (insertAll fail (insertOne fail db (songToRow s)).2 rest).1 := rfl
    rw [hzip] at hp
    rcases List.mem_cons.mp hp with rfl | hp
    · have hv := hstored s (List.mem_cons_self s rest) hne
      show (insertOne fail db (songToRow s)).1 = Outcome.skippedDup
      unfold insertOne
      rw [if_pos hv]
    · exact second_run_skips fail rest (insertOne fail db (songToRow s)).2
        (fun t ht hn =>
          violates_mono (fun q hq => insertOne_mem fail db (songToRow s) hq)
            (hstored t (List.mem_cons_of_mem s ht) hn)) p hp hne

/-! ### Lemmas about the date-range loop and the timestamp parser -/

/-- The driver's loop is the flattened map over the ascending day range. -/
theorem fetchDateRangeAux_eq (f : Nat → List Song) :
    ∀ (n cur : Nat), fetchDateRangeAux f n cur = ((List.range' cur n).map f).flatten
  | 0, _ => rfl
  | n + 1, cur => by
    rw [List.range'_succ]
    simp only [List.map_cons, List.flatten_cons]
    rw [← fetchDateRangeAux_eq f n (cur + 1)]
    rfl

/-- If the first format (`%H:%M`) parses, `_parse_timestamp` uses it. -/
theorem parseTimestamp_of_parseHM {s : String} {h m sec : Nat} (d : PyDateTime)
    (hp : parseHM s = some (h, m, sec)) :
    parseTimestamp s d = (d.replaceTime h m sec).isoformat := by
  have hs : s ≠ "" := by
    intro he
    have h0 : parseHM "" = none := rfl
    rw [he, h0] at hp
    exact Option.noConfusion hp
  unfold parseTimestamp
  rw [if_neg hs, hp]

/-- If `%H:%M` fails but `%I:%M %p` parses, `_parse_timestamp` uses the
second format. -/
theorem parseTimestamp_of_parseIMp {s : String} {h m sec : Nat} (d : PyDateTime)
    (h1 : parseHM s = none) (h2 : parseIMp s = some (h, m, sec)) :
    parseTimestamp s d = (d.replaceTime h m sec).isoformat := by
  have hs : s ≠ "" := by
    intro he
    have h0 : parseIMp "" = none := rfl
    rw [he, h0] at h2
    exact Option.noConfusion h2
  unfold parseTimestamp
  rw [if_neg hs, h1, h2]

/-- `isoformat` of a value with nonzero `microsecond` carries the 6-digit
fraction. -/
theorem isoformat_of_ne_zero {e : PyDateTime} (hmu : e.microsecond ≠ 0) :
    e.isoformat = padNum 4 e.year ++ "-" ++ padNum 2 e.month ++ "-" ++ padNum 2 e.day ++ "T" ++
      padNum 2 e.hour ++ ":" ++ padNum 2 e.minute ++ ":" ++ padNum 2 e.second ++
      ("." ++ padNum 6 e.microsecond) := by
  unfold PyDateTime.isoformat
  rw [if_neg hmu]

/-- In a list of pairwise-distinct keys, a member's key is counted once. -/
theorem countKey_eq_one : ∀ {l : List Song},
    l.Pairwise (fun a b => songKey a ≠ songKey b) → ∀ {x : Song}, x ∈ l →
    countKey l (songKey x) = 1 := by
  intro l
  induction l with
  | nil => intro _ x hx; cases hx
  | cons a t ih =>
    intro hp x hx
    rw [List.pairwise_cons] at hp
    unfold countKey
    rw [List.countP_cons]
    rcases List.mem_cons.mp hx with rfl | hx
    · have h0 : t.countP (fun s => decide (songKey s = songKey x)) = 0 := by
        rw [List.countP_eq_zero]
        intro b hb
        simp only [decide_eq_true_eq]
        exact fun he => hp.1 b hb he.symm
      simp [h0]
    · have hne : songKey a ≠ songKey x := hp.1 x hx
      have h1 := ih hp.2 hx
      unfold countKey at h1
      simp [h1, hne]

/-! ### The claims -/

/-- Claim C1: for every target date, the list returned by the hourly-window
collector `fetch_playlist` contains no two events with the same
`(artist, title, localTime)` key; when two hourly queries both return an
event with an identical key, exactly one copy survives into the merged day
result; and this uniqueness holds after every hourly merge step. -/
theorem C1_hourly_dedup_unique (fetchHour : Nat → List Song) (date now : PyDateTime) :
    (fetchPlaylist fetchHour date now).Pairwise (fun a b => songKey a ≠ songKey b) ∧
    (∀ i : Nat, (collectHours (((hoursQueried date now).map fetchHour).take i)).Pairwise
      (fun a b => songKey a ≠ songKey b)) ∧
    (∀ s ∈ ((hoursQueried date now).map fetchHour).flatten,
      countKey (fetchPlaylist fetchHour date now) (songKey s) = 1) := by
  refine ⟨?_, ?_, ?_⟩
  · have h := collectHours_pairwise ((hoursQueried date now).map fetchHour)
    exact ((sortSongs_perm _).pairwise_iff (fun hne he => hne he.symm)).mpr h
  · intro i
    exact collectHours_pairwise _
  · intro s hs
    obtain ⟨x, hx, hkey⟩ :=
      foldHours_key ((hoursQueried date now).map fetchHour) ([], []) dedupInv_init s hs
    have hcnt := countKey_eq_one (collectHours_pairwise ((hoursQueried date now).map fetchHour)) hx
    rw [← hkey]
    unfold countKey at hcnt ⊢
    unfold fetchPlaylist
    rw [(sortSongs_perm _).countP_eq]
    exact hcnt

/-- Witness for C1 at a concrete input: a single hourly query returning one
song; its key is fetched, and it is counted exactly once in the day result. -/
theorem C1_hourly_dedup_unique_witness :
    ((⟨"A", "X", "10:00", "2024-03-01", "2024-03-01T10:00:00"⟩ : Song) ∈
      ((hoursQueried ⟨2024, 3, 1, 0, 0, 0, 0⟩ ⟨2024, 3, 1, 0, 5, 0, 0⟩).map
        (fun _ => [⟨"A", "X", "10:00", "2024-03-01", "2024-03-01T10:00:00"⟩])).flatten) ∧
    countKey (fetchPlaylist (fun _ => [⟨"A", "X", "10:00", "2024-03-01", "2024-03-01T10:00:00"⟩])
      ⟨2024, 3, 1, 0, 0, 0, 0⟩ ⟨2024, 3, 1, 0, 5, 0, 0⟩) ("A", "X", "10:00") = 1 :=
  ⟨by decide,
    (C1_hourly_dedup_unique (fun _ => [⟨"A", "X", "10:00", "2024-03-01", "2024-03-01T10:00:00"⟩])
      ⟨2024, 3, 1, 0, 0, 0, 0⟩ ⟨2024, 3, 1, 0, 5, 0, 0⟩).2.2
      ⟨"A", "X", "10:00", "2024-03-01", "2024-03-01T10:00:00"⟩ (by decide)⟩

/-- Counterexample to claim C2: a data row whose performer element is
present but whose text strips to the empty string is NOT omitted — the
extractor emits an event with an empty artist, because the row guard
`if title_elem and artist_elem:` tests only element presence. -/
theorem C2_drop_on_missing_counterexample :
    ∃ s, s ∈ parsePlaylist ⟨2024, 3, 1, 0, 0, 0, 0⟩
        [⟨some "01.03.2024,17.15 Uhr", some "X", some ""⟩] ∧ s.artist = "" := by
  refine ⟨⟨"", "X", "17:15", "2024-03-01", "2024-03-01T17:15:00"⟩, ?_, rfl⟩
  have h : parsePlaylist ⟨2024, 3, 1, 0, 0, 0, 0⟩
      [⟨some "01.03.2024,17.15 Uhr", some "X", some ""⟩]
      = [⟨"", "X", "17:15", "2024-03-01", "2024-03-01T17:15:00"⟩] := by decide
  rw [h]
  exact List.mem_singleton_self _

/-- Claim C2 amended: `_parse_playlist` omits a row exactly when the title
element or the performer element is absent from the row; element text being
empty after trimming is not checked, so events with empty artist or title
can appear in the extracted sequence. -/
theorem C2_drop_on_missing_amended (date : PyDateTime) (row : RawRow) :
    parseRow date row = none ↔ row.titleElem = none ∨ row.performerElem = none := by
  cases ht : row.titleElem with
  | none => simp [parseRow, ht]
  | some t =>
    cases hp : row.performerElem with
    | none => simp [parseRow, ht, hp]
    | some a => simp [parseRow, ht, hp]

/-- Claim C3: when the target date is today, `fetch_playlist` queries
exactly hours `0 .. now.hour` inclusive (with current time 14:37 that is
hours 0..14, 15 queries, never hour 15 or later); when the target date is
not today it queries all 24 hours `0 .. 23`. -/
theorem C3_today_boundary :
    (∀ date now : PyDateTime, sameDate date now = true →
      hoursQueried date now = List.range (now.hour + 1)) ∧
    (∀ date now : PyDateTime, sameDate date now = true →
      ∀ h : Nat, h ∈ hoursQueried date now ↔ h ≤ now.hour) ∧
    (∀ date now : PyDateTime, sameDate date now = false →
      hoursQueried date now = List.range 24) ∧
    (hoursQueried ⟨2024, 3, 1, 0, 0, 0, 0⟩ ⟨2024, 3, 1, 14, 37, 0, 0⟩
      = [0, 1, 2, 3, 4, 5, 6, 7, 8, 9, 10, 11, 12, 13, 14]) ∧
    ((hoursQueried ⟨2024, 3, 1, 0, 0, 0, 0⟩ ⟨2024, 3, 1, 14, 37, 0, 0⟩).length = 15) ∧
    (15 ∉ hoursQueried ⟨2024, 3, 1, 0, 0, 0, 0⟩ ⟨2024, 3, 1, 14, 37, 0, 0⟩) := by
  refine ⟨?_, ?_, ?_, by decide, by decide, by decide⟩
  · intro date now h
    unfold hoursQueried maxHourFor
    rw [if_pos h]
  · intro date now h hr
    unfold hoursQueried maxHourFor
    rw [if_pos h, List.mem_range]
    omega
  · intro date now h
    unfold hoursQueried maxHourFor
    rw [if_neg (by simp [h])]

/-- Witness for C3 at a concrete input: on 2024-03-01 with current time
14:37 the queried hours are exactly `range 15`. -/
theorem C3_today_boundary_witness :
    sameDate ⟨2024, 3, 1, 0, 0, 0, 0⟩ ⟨2024, 3, 1, 14, 37, 0, 0⟩ = true ∧
    hoursQueried ⟨2024, 3, 1, 0, 0, 0, 0⟩ ⟨2024, 3, 1, 14, 37, 0, 0⟩ = List.range (14 + 1) :=
  ⟨by decide,
    C3_today_boundary.1 ⟨2024, 3, 1, 0, 0, 0, 0⟩ ⟨2024, 3, 1, 14, 37, 0, 0⟩ (by decide)⟩

/-- Claim C4: the list returned by `fetch_playlist` is sorted ascending by
the event's timestamp string; the empty value of an absent timestamp sorts
before every present timestamp; and for the events
`[("A","X",""), ("B","Y","10:00")]` the absent-timestamp event is placed
first, deterministically. -/
theorem C4_sorted_by_timestamp :
    (∀ (fetchHour : Nat → List Song) (date now : PyDateTime),
      (fetchPlaylist fetchHour date now).Pairwise songLe) ∧
    (∀ a b : Song, a.datetime = "" → songLe a b) ∧
    (sortSongs [⟨"A", "X", "", "2024-03-01", ""⟩,
        ⟨"B", "Y", "10:00", "2024-03-01", "2024-03-01T10:00:00"⟩]
      = [⟨"A", "X", "", "2024-03-01", ""⟩,
        ⟨"B", "Y", "10:00", "2024-03-01", "2024-03-01T10:00:00"⟩]) ∧
    (fetchPlaylist (fun _ => [⟨"B", "Y", "10:00", "2024-03-01", "2024-03-01T10:00:00"⟩,
        ⟨"A", "X", "", "2024-03-01", ""⟩]) ⟨2024, 3, 1, 0, 0, 0, 0⟩ ⟨2024, 3, 1, 0, 5, 0, 0⟩
      = [⟨"A", "X", "", "2024-03-01", ""⟩,
        ⟨"B", "Y", "10:00", "2024-03-01", "2024-03-01T10:00:00"⟩]) := by
  refine ⟨?_, ?_, by decide, by decide⟩
  · intro fetchHour date now
    exact sortSongs_pairwise _
  · intro a b ha
    unfold songLe
    rw [ha]
    exact lexLe_nil_left _

/-- Witness for C4 at a concrete input: the absent-timestamp event sorts
no later than the 10:00 event. -/
theorem C4_sorted_by_timestamp_witness :
    (⟨"A", "X", "", "2024-03-01", ""⟩ : Song).datetime = "" ∧
    songLe ⟨"A", "X", "", "2024-03-01", ""⟩
      ⟨"B", "Y", "10:00", "2024-03-01", "2024-03-01T10:00:00"⟩ :=
  ⟨rfl, C4_sorted_by_timestamp.2.1 _ _ rfl⟩

/-- Claim C5: re-running `insert_songs` on the same event list marks every
event with a non-empty timestamp as a constraint-violation skip (zero
newly inserted rows for those events); a uniqueness-constraint violation is
silently turned into a skip that leaves the table unchanged (the exception
never escapes `insert_songs`, which is a total function here); and any
other per-event storage error skips only that event while the rest of the
batch is processed unchanged. -/
theorem C5_ingestion_idempotent :
    (∀ (songs : List Song) (db0 : DB),
      ∀ p ∈ songs.zip (insertAll noFail (insertAll noFail db0 songs).2 songs).1,
        p.1.datetime ≠ "" → p.2 = Outcome.skippedDup) ∧
    (∀ (fail : Row → Bool) (db : DB) (r : Row), violates db r = true →
      insertOne fail db r = (Outcome.skippedDup, db)) ∧
    (∀ (fail : Row → Bool) (db : DB) (s : Song) (rest : List Song),
      violates db (songToRow s) = false → fail (songToRow s) = true →
      insertAll fail db (s :: rest)
        = (Outcome.skippedErr :: (insertAll fail db rest).1, (insertAll fail db rest).2)) := by
  refine ⟨?_, ?_, ?_⟩
  · intro songs db0
    exact second_run_skips noFail songs (insertAll noFail db0 songs).2
      (fun s hs hne => run_key_stored songs db0 hs hne)
  · intro fail db r hv
    unfold insertOne
    rw [if_pos hv]
  · intro fail db s rest hv hf
    have hstep : insertOne fail db (songToRow s) = (Outcome.skippedErr, db) := by
      unfold insertOne
      rw [if_neg (by simp [hv]), if_pos hf]
    show ((insertOne fail db (songToRow s)).1 ::
        (insertAll fail (insertOne fail db (songToRow s)).2 rest).1,
      (insertAll fail (insertOne fail db (songToRow s)).2 rest).2) = _
    rw [hstep]

/-- Witness for C5 at a concrete input: ingesting one parsed-timestamp
event twice yields a duplicate skip on the second run. -/
theorem C5_ingestion_idempotent_witness :
    ((⟨"A", "X", "10:00", "2024-03-01", "2024-03-01T10:00:00"⟩ : Song),
        Outcome.skippedDup) ∈
      [(⟨"A", "X", "10:00", "2024-03-01", "2024-03-01T10:00:00"⟩ : Song)].zip
        (insertAll noFail
          (insertAll noFail [] [⟨"A", "X", "10:00", "2024-03-01", "2024-03-01T10:00:00"⟩]).2
          [⟨"A", "X", "10:00", "2024-03-01", "2024-03-01T10:00:00"⟩]).1 ∧
    ((⟨"A", "X", "10:00", "2024-03-01", "2024-03-01T10:00:00"⟩ : Song),
        Outcome.skippedDup).2 = Outcome.skippedDup :=
  ⟨by decide,
    C5_ingestion_idempotent.1 [⟨"A", "X", "10:00", "2024-03-01", "2024-03-01T10:00:00"⟩] []
      (⟨"A", "X", "10:00", "2024-03-01", "2024-03-01T10:00:00"⟩, Outcome.skippedDup)
      (by decide) (by decide)⟩

/-- Counterexample to claim C6: on the failure branch (network error,
timeout, non-2xx status) `_fetch_playlist_for_time` returns without
applying the inter-request delay — `time.sleep` sits inside the `try`
block, so the `except` branch skips it. -/
theorem C6_delay_counterexample :
    (fetchForTime FetchOutcome.failure ⟨2024, 3, 1, 0, 0, 0, 0⟩).2 = false := rfl

/-- Claim C6 amended: the configured delay is applied after every
successful fetch (after parsing, before returning); on a failed fetch the
call returns the empty result immediately, without the delay. -/
theorem C6_delay_amended (rows : List RawRow) (date : PyDateTime) :
    fetchForTime (FetchOutcome.success rows) date = (parsePlaylist date rows, true) ∧
    fetchForTime FetchOutcome.failure date = ([], false) :=
  ⟨rfl, rfl⟩

/-- Claim C7: `_parse_timestamp` returns a value for every input (it is a
total function here): on the empty string it returns the empty/absent
result, and on any string matching none of the accepted formats
(`%H:%M`, `%I:%M %p`, `%H:%M:%S`) it also returns the absent result rather
than an error. -/
theorem C7_parse_timestamp_total :
    (∀ d : PyDateTime, parseTimestamp "" d = "") ∧
    (∀ (s : String) (d : PyDateTime),
      parseHM s = none → parseIMp s = none → parseHMS s = none →
      parseTimestamp s d = "") := by
  constructor
  · intro d
    rfl
  · intro s d h1 h2 h3
    unfold parseTimestamp
    rw [h1, h2, h3]
    simp

/-- Witness for C7 at a concrete input: `"banana"` matches no format and
parses to the absent result. -/
theorem C7_parse_timestamp_total_witness :
    (parseHM "banana" = none ∧ parseIMp "banana" = none ∧ parseHMS "banana" = none) ∧
    parseTimestamp "banana" ⟨2024, 3, 1, 0, 0, 0, 0⟩ = "" :=
  ⟨⟨by decide, by decide, by decide⟩,
    C7_parse_timestamp_total.2 "banana" ⟨2024, 3, 1, 0, 0, 0, 0⟩
      (by decide) (by decide) (by decide)⟩

/-- Claim C8: the accepted formats are tried in priority order with the
first success winning, and the parsed wall-clock time is combined with the
query date via `date.replace`; the station label `"17.15"` is normalized by
the extractor to `"17:15"` and, combined with date 2024-03-01 (zero
time-of-day), yields the instant `2024-03-01T17:15:00`. -/
theorem C8_time_parse_priority :
    (∀ (s : String) (d : PyDateTime) (h m sec : Nat),
      parseHM s = some (h, m, sec) →
      parseTimestamp s d = (d.replaceTime h m sec).isoformat) ∧
    (∀ (s : String) (d : PyDateTime) (h m sec : Nat),
      parseHM s = none → parseIMp s = some (h, m, sec) →
      parseTimestamp s d = (d.replaceTime h m sec).isoformat) ∧
    (extractTimeStr "01.03.2024,17.15 Uhr" = "17:15") ∧
    (parseTimestamp "17:15" ⟨2024, 3, 1, 0, 0, 0, 0⟩ = "2024-03-01T17:15:00") := by
  refine ⟨?_, ?_, by decide, by decide⟩
  · intro s d h m sec hp
    exact parseTimestamp_of_parseHM d hp
  · intro s d h m sec h1 h2
    exact parseTimestamp_of_parseIMp d h1 h2

/-- Witness for C8 at a concrete input: `"17:15"` parses with the first
format and the result is the combined instant. -/
theorem C8_time_parse_priority_witness :
    parseHM "17:15" = some (17, 15, 0) ∧
    parseTimestamp "17:15" ⟨2024, 3, 1, 0, 0, 0, 0⟩
      = ((⟨2024, 3, 1, 0, 0, 0, 0⟩ : PyDateTime).replaceTime 17 15 0).isoformat :=
  ⟨by decide,
    C8_time_parse_priority.1 "17:15" ⟨2024, 3, 1, 0, 0, 0, 0⟩ 17 15 0 (by decide)⟩

/-- Claim C9: `fetch_date_range` returns exactly the concatenation of the
per-day collector results in ascending date order over the inclusive range;
the same key on two different dates yields two distinct output events (no
cross-day deduplication); and a day yielding zero events does not stop
processing of later days. -/
theorem C9_date_range_concat :
    (∀ (fetchDay : Nat → List Song) (startDay endDay : Nat),
      fetchDateRange fetchDay startDay endDay
        = ((List.range' startDay (endDay + 1 - startDay)).map fetchDay).flatten) ∧
    (countKey (fetchDateRange (fun d =>
        fetchPlaylist (fun _ => [⟨"A", "X", "10:00",
            if d = 0 then "2024-03-01" else "2024-03-02",
            if d = 0 then "2024-03-01T10:00:00" else "2024-03-02T10:00:00"⟩])
          ⟨2024, 3, 1 + d, 0, 0, 0, 0⟩ ⟨2024, 3, 1, 0, 5, 0, 0⟩) 0 1)
      ("A", "X", "10:00") = 2) ∧
    (fetchDateRange (fun d => if d = 0 then []
        else [⟨"B", "Y", "11:00", "2024-03-02", "2024-03-02T11:00:00"⟩]) 0 1
      = [⟨"B", "Y", "11:00", "2024-03-02", "2024-03-02T11:00:00"⟩]) := by
  refine ⟨?_, by decide, by decide⟩
  intro fetchDay startDay endDay
  exact fetchDateRangeAux_eq fetchDay (endDay + 1 - startDay) startDay

/-- Claim C10 (implicit): `_parse_timestamp` builds the combined instant
with `date.replace(hour, minute, second)`, which preserves the query date's
`microsecond`; for every query date with a nonzero sub-second fraction —
as on the "last N days" CLI path, where `cmd_scrape` passes
`datetime.now()` — the produced timestamp carries that fraction, so two
runs with different fractions produce different `(artist, title, timestamp)`
values and the sink's uniqueness constraint does not fire across runs. -/
theorem C10_microsecond_leak :
    (∀ (s : String) (d : PyDateTime) (h m sec : Nat),
      parseHM s = some (h, m, sec) → d.microsecond ≠ 0 →
      parseTimestamp s d
        = padNum 4 d.year ++ "-" ++ padNum 2 d.month ++ "-" ++ padNum 2 d.day ++ "T" ++
          padNum 2 h ++ ":" ++ padNum 2 m ++ ":" ++ padNum 2 sec ++
          ("." ++ padNum 6 d.microsecond)) ∧
    (parseTimestamp "17:15" ⟨2024, 3, 1, 10, 20, 30, 123456⟩
      ≠ parseTimestamp "17:15" ⟨2024, 3, 1, 9, 45, 2, 654321⟩) ∧
    ((insertOne noFail
        [songToRow ⟨"A", "X", "17:15", "2024-03-01",
          parseTimestamp "17:15" ⟨2024, 3, 1, 10, 20, 30, 123456⟩⟩]
        (songToRow ⟨"A", "X", "17:15", "2024-03-01",
          parseTimestamp "17:15" ⟨2024, 3, 1, 9, 45, 2, 654321⟩⟩)).1
      = Outcome.inserted) := by
  refine ⟨?_, by decide, by decide⟩
  intro s d h m sec hp hmu
  rw [parseTimestamp_of_parseHM d hp]
  exact isoformat_of_ne_zero (show (PyDateTime.replaceTime d h m sec).microsecond ≠ 0 from hmu)

/-- Witness for C10 at a concrete input: a query date carrying microsecond
123456 produces a timestamp ending in `.123456`. -/
theorem C10_microsecond_leak_witness :
    parseHM "17:15" = some (17, 15, 0) ∧
    (⟨2024, 3, 1, 10, 20, 30, 123456⟩ : PyDateTime).microsecond ≠ 0 ∧
    parseTimestamp "17:15" ⟨2024, 3, 1, 10, 20, 30, 123456⟩
      = padNum 4 2024 ++ "-" ++ padNum 2 3 ++ "-" ++ padNum 2 1 ++ "T" ++
        padNum 2 17 ++ ":" ++ padNum 2 15 ++ ":" ++ padNum 2 0 ++
        ("." ++ padNum 6 123456) :=
  ⟨by decide, by decide,
    C10_microsecond_leak.1 "17:15" ⟨2024, 3, 1, 10, 20, 30, 123456⟩ 17 15 0
      (by decide) (by decide)⟩
